import Mathlib

/-!
Shallow embedding of the navigation state machine in `src/data.py`
(`class Screen`).  Machine state is the set of attributes that the
navigation methods touch; Python integers are modelled as `Int`, Python
floor division `//` as `Int.fdiv` and `%` as `Int.fmod` (both match
the semantics of Python for nonzero divisors).  The curses calls are pure
I/O and do not affect the navigation state.
-/

namespace MyTui

/-- The navigation-relevant state of `Screen` (src/data.py, `__init__`):
`items` is the active list, `backup` the optional saved list, `item` the
selection marker (`-1` = none), `max_lines` the viewport capacity,
and `top`, `bottom`, `current`, `page` the viewport geometry. -/
structure Screen where
  items : List String
  backup : Option (List String)
  item : Int
  max_lines : Int
  top : Int
  bottom : Int
  current : Int
  page : Int
deriving DecidableEq, Repr

/-- `Screen.UP = -1` (src/data.py line 7). -/
def UP : Int := -1

/-- `Screen.DOWN = 1` (src/data.py line 8). -/
def DOWN : Int := 1

/-- Error raised during `__init__`: Python raises `ZeroDivisionError`
on `self.bottom // self.max_lines` when `max_lines == 0`.  The code
contains no other failure path (and no `InvalidConfiguration` class). -/
inductive InitError where
  | zeroDivision
deriving DecidableEq, Repr

/-- The state produced by `Screen.__init__(items)` when division by
`max_lines` succeeds (src/data.py lines 52-60): `items` kept, `backup =
None`, `item = -1`, `top = 0`, `bottom = len(items)`, `current = 0`,
`page = bottom // max_lines`.  `max_lines` comes from `curses.LINES`
(the terminal height), an external input, hence a parameter here. -/
def init0 (items : List String) (maxLines : Int) : Screen :=
  { items := items
    backup := none
    item := -1
    max_lines := maxLines
    top := 0
    bottom := (items.length : Int)
    current := 0
    page := (items.length : Int).fdiv maxLines }

/-- `Screen.__init__` with the Python failure behaviour: `bottom //
max_lines` raises `ZeroDivisionError` iff `max_lines == 0`; every other
capacity (negative included) succeeds. -/
def initScreen (items : List String) (maxLines : Int) : Except InitError Screen :=
  if maxLines = 0 then .error .zeroDivision
  else .ok (init0 items maxLines)

/-- `Screen.scroll(direction)` (src/data.py lines 149-173): four guarded
`if ... return` blocks, hence an if-else chain; falling through all four
leaves the state unchanged. -/
def scroll (s : Screen) (direction : Int) : Screen :=
  let next_line := s.current + direction
  if direction = UP ∧ (s.top > 0 ∧ s.current = 0) then
    { s with top := s.top + direction }
  else if direction = DOWN ∧ next_line = s.max_lines ∧ s.top + s.max_lines < s.bottom then
    { s with top := s.top + direction }
  else if direction = UP ∧ (s.top > 0 ∨ s.current > 0) then
    { s with current := next_line }
  else if direction = DOWN ∧ next_line < s.max_lines ∧ s.top + next_line < s.bottom then
    { s with current := next_line }
  else s

/-- `Screen.paging(direction)` (src/data.py lines 175-194):
`current_page` and `next_page` are computed from the incoming state;
the last-page clamp mutates `current` first, then exactly one of the
up/down blocks may move `top`. -/
def paging (s : Screen) (direction : Int) : Screen :=
  let current_page := (s.top + s.current).fdiv s.max_lines
  let next_page := current_page + direction
  let s1 :=
    if next_page = s.page then
      { s with current := min s.current (s.bottom.fmod s.max_lines - 1) }
    else s
  if direction = UP ∧ current_page > 0 then
    { s1 with top := max 0 (s1.top - s1.max_lines) }
  else if direction = DOWN ∧ current_page < s1.page then
    { s1 with top := s1.top + s1.max_lines }
  else s1

/-- `needle` matches at the head of `hay` (the prefix test underlying
the Python substring operator). -/
def matchesAt : List Char → List Char → Bool
  | [], _ => true
  | _ :: _, [] => false
  | a :: as, b :: bs => a = b && matchesAt as bs

/-- The Python `search in item` substring containment on character lists:
true iff `needle` matches at some position of `hay` (always true for the
empty needle). -/
def containsSub (hay needle : List Char) : Bool :=
  if matchesAt needle hay then true
  else
    match hay with
    | [] => false
    | _ :: t => containsSub t needle

/-- The Python `search in item` test on strings. -/
def strContains (hay needle : String) : Bool :=
  containsSub hay.data needle.data

/-- The `ch == 102` (filter) handler in `Screen.input_stream`
(src/data.py lines 135-141): `backup = items`, then `items` rebuilt as
the sublist of the old list whose members contain `search`.  The
handler never checks whether a backup is already held. -/
def filterCmd (s : Screen) (search : String) : Screen :=
  { s with
    backup := some s.items
    items := s.items.filter (fun item => strContains item search) }

/-- The `ch == 114` (restore) handler (src/data.py lines 131-134): if a
backup is held, swap it with `items` and then clear the backup slot
(the net effect of the tuple swap followed by `backup = None`). -/
def restore (s : Screen) : Screen :=
  match s.backup with
  | some b => { s with items := b, backup := none }
  | none => s

/-- The enter-key handler (src/data.py line 145): `self.item = self.current`. -/
def select (s : Screen) : Screen :=
  { s with item := s.current }

/-- The escape-key handler (src/data.py line 147): `self.item = -1`. -/
def cancel (s : Screen) : Screen :=
  { s with item := -1 }

/-- The four navigation commands reachable from the key loop that touch
only viewport geometry (arrow keys → scroll, left/right → paging). -/
inductive NavCmd where
  | scrollUp
  | scrollDown
  | pageUp
  | pageDown
deriving DecidableEq, Repr

/-- One key dispatch for a navigation command (src/data.py lines 123-130). -/
def step (s : Screen) : NavCmd → Screen
  | .scrollUp => scroll s UP
  | .scrollDown => scroll s DOWN
  | .pageUp => paging s UP
  | .pageDown => paging s DOWN

/-- A finite sequence of navigation key presses. -/
def run (s : Screen) (cmds : List NavCmd) : Screen :=
  cmds.foldl step s

/-- The local `current_page` computation at the head of `Screen.paging`
(src/data.py line 177). -/
def currentPage (s : Screen) : Int :=
  (s.top + s.current).fdiv s.max_lines

/-- The state after `k` consecutive Page(Down) presses from the freshly
constructed screen. -/
def pdIter (items : List String) (c : Int) (k : Nat) : Screen :=
  run (init0 items c) (List.replicate k NavCmd.pageDown)

/-- The derived last-page index `L // C` of the freshly constructed
screen, as a natural number. -/
def lastPage (items : List String) (c : Int) : Nat :=
  ((items.length : Int).fdiv c).toNat

/-- The weak viewport invariant: positive capacity, non-negative `top`,
cursor strictly below capacity.  This much survives arbitrary
scroll/page sequences. -/
def WInv (s : Screen) : Prop :=
  0 < s.max_lines ∧ 0 ≤ s.top ∧ s.current < s.max_lines

/-- The full viewport invariant claimed by the specification:
`0 ≤ top ≤ bottom`, `0 ≤ current < capacity`, and `top + current <
bottom` when the list is non-empty (for the empty list the viewport is
pinned at the origin). -/
def Inv (s : Screen) : Prop :=
  0 < s.max_lines ∧ 0 ≤ s.top ∧ s.top ≤ s.bottom ∧ 0 ≤ s.current ∧
    s.current < s.max_lines ∧
    (s.top + s.current < s.bottom ∨ (s.bottom = 0 ∧ s.top = 0 ∧ s.current = 0))

instance (s : Screen) : Decidable (WInv s) := by
  unfold WInv; infer_instance

instance (s : Screen) : Decidable (Inv s) := by
  unfold Inv; infer_instance

/-- A concrete mid-list state (viewport scrolled to `top = 2`, cursor on
relative row 1, absolute row 3). -/
def s21 : Screen :=
  { init0 ["a", "b", "c", "d", "e"] 2 with top := 2, current := 1 }

/-- A command list contains only scroll commands (no paging). -/
def ScrollOnly (cmds : List NavCmd) : Prop :=
  ∀ x ∈ cmds, x = NavCmd.scrollUp ∨ x = NavCmd.scrollDown

instance (cmds : List NavCmd) : Decidable (ScrollOnly cmds) := by
  unfold ScrollOnly; infer_instance

lemma strContains_empty (hay : String) : strContains hay "" = true := by
  unfold strContains
  cases hay.data <;> simp [containsSub, matchesAt]

/-- Claim C2: the claim asserts `Select` stores the absolute index
`top + current`; the code (src/data.py line 145) stores the
viewport-relative `current`.  At `top = 2`, `current = 1` the stored
value is `1`, not `3`. -/
theorem c2_select_counterexample :
    (select s21).item ≠ s21.top + s21.current := by
  decide

/-- Claim C2 (amended): `Select` sets `item` to the viewport-relative
cursor `current` (so at `top = 2`, `current = 1` it stores `1`), and
`Cancel` sets `item` to `-1` (none) regardless of the prior value. -/
theorem c2_select_cancel (s : Screen) :
    (select s).item = s.current ∧ (select s21).item = 1 ∧
      (cancel s).item = -1 := by
  exact ⟨rfl, rfl, rfl⟩

/-- Claim C3: the filter handler (src/data.py lines 135-141) replaces
the active list but never recomputes `bottom`: filtering
`["ax","b","cx"]` by `"x"` leaves `bottom = 3` while the new active
list has length `2`, contradicting the attribute
documentation (`bottom: ... as length of items`, line 21). -/
theorem c3_bottom_not_recomputed :
    (filterCmd (init0 ["ax", "b", "cx"] 5) "x").items = ["ax", "cx"] ∧
      (filterCmd (init0 ["ax", "b", "cx"] 5) "x").bottom = 3 ∧
      (filterCmd (init0 ["ax", "b", "cx"] 5) "x").bottom ≠
        ((filterCmd (init0 ["ax", "b", "cx"] 5) "x").items.length : Int) := by
  decide

/-- Claim C4: Filter followed immediately by Restore returns the active
item list and `bottom` to their pre-filter values, for every state and
every predicate string (filter saves the old list in `backup`, restore
swaps it back; neither handler touches `bottom`). -/
theorem c4_filter_restore_roundtrip (s : Screen) (p : String) :
    (restore (filterCmd s p)).items = s.items ∧
      (restore (filterCmd s p)).bottom = s.bottom := by
  exact ⟨rfl, rfl⟩

/-- Claim C6: the claim asserts a second Filter leaves the backup
holding the original unfiltered list; the code reassigns
`self.backup = self.items` unconditionally, so after filtering
`["ax","b","cx"]` by `"x"` and then by `"a"` the backup holds
`["ax","cx"]`, not the original list. -/
theorem c6_refilter_counterexample :
    (filterCmd (filterCmd (init0 ["ax", "b", "cx"] 5) "x") "a").backup ≠
      some ["ax", "b", "cx"] := by
  decide

/-- Claim C6 (amended): a second Filter replaces the backup with the
result of the first Filter (the list the first filter produced), silently
discarding the original unfiltered list. -/
theorem c6_refilter_backup (s : Screen) (p q : String) :
    (filterCmd (filterCmd s p) q).backup =
      some (s.items.filter (fun it => strContains it p)) := by
  rfl

/-- Claim C7: the claim asserts construction fails for capacity ≤ 0;
the code performs no validation at all (there is no
`InvalidConfiguration` in the repository), and at capacity `-1`
construction succeeds. -/
theorem c7_negative_capacity_counterexample :
    initScreen ["a"] (-1) = Except.ok (init0 ["a"] (-1)) := by
  rfl

/-- Claim C7 (amended): construction never validates the capacity: it
fails only at capacity `0` (Python raises `ZeroDivisionError` on
`bottom // max_lines`), and for every nonzero capacity — negative ones
included — it succeeds with `top = 0`, `current = 0`,
`bottom = len(items)`, `page = bottom // capacity` (floor division),
no backup and no selection. -/
theorem c7_construction (items : List String) (c : Int) (hc : c ≠ 0) :
    initScreen items c = Except.ok (init0 items c) ∧
      (init0 items c).top = 0 ∧ (init0 items c).current = 0 ∧
      (init0 items c).bottom = (items.length : Int) ∧
      (init0 items c).page = (items.length : Int).fdiv c ∧
      (init0 items c).backup = none ∧ (init0 items c).item = -1 ∧
      initScreen items 0 = Except.error InitError.zeroDivision := by
  refine ⟨?_, rfl, rfl, rfl, rfl, rfl, rfl, ?_⟩
  · simp [initScreen, hc]
  · simp [initScreen]

/-- Witness for C7: at the concrete capacity `2` the construction
equations hold. -/
theorem c7_construction_witness :
    initScreen ["a"] 2 = Except.ok (init0 ["a"] 2) ∧
      (init0 ["a"] 2).top = 0 ∧ (init0 ["a"] 2).current = 0 ∧
      (init0 ["a"] 2).bottom = ((["a"] : List String).length : Int) ∧
      (init0 ["a"] 2).page = ((["a"] : List String).length : Int).fdiv 2 ∧
      (init0 ["a"] 2).backup = none ∧ (init0 ["a"] 2).item = -1 ∧
      initScreen ["a"] 0 = Except.error InitError.zeroDivision :=
  c7_construction ["a"] 2 (by decide)

/-- Claim C9: filtering by the empty string is not an error and keeps
the whole list: every item contains the empty substring, so the new
active list equals the old one, while the backup is still taken (the
empty filter is a real filter, not "no filter"). -/
theorem c9_empty_filter (s : Screen) :
    (filterCmd s "").items = s.items ∧
      (filterCmd s "").backup = some s.items := by
  constructor
  · show s.items.filter (fun it => strContains it "") = s.items
    exact List.filter_eq_self.mpr (fun a _ => strContains_empty a)
  · rfl

/-- Claim C10: frame conditions.  Scroll and Page touch only `top` and
`current` (never the item list, backup, `bottom`, or the selection);
Filter and Restore touch only `items` and `backup` (never `top`,
`current`, or the selection); Select and Cancel touch only `item`
(never the viewport, the list, or the backup). -/
theorem c10_frame_conditions (s : Screen) (d : Int) (p : String) :
    ((scroll s d).items = s.items ∧ (scroll s d).backup = s.backup ∧
      (scroll s d).bottom = s.bottom ∧ (scroll s d).item = s.item) ∧
    ((paging s d).items = s.items ∧ (paging s d).backup = s.backup ∧
      (paging s d).bottom = s.bottom ∧ (paging s d).item = s.item) ∧
    ((filterCmd s p).top = s.top ∧ (filterCmd s p).current = s.current ∧
      (filterCmd s p).item = s.item) ∧
    ((restore s).top = s.top ∧ (restore s).current = s.current ∧
      (restore s).item = s.item) ∧
    ((select s).top = s.top ∧ (select s).current = s.current ∧
      (select s).bottom = s.bottom ∧ (select s).items = s.items ∧
      (select s).backup = s.backup) ∧
    ((cancel s).top = s.top ∧ (cancel s).current = s.current ∧
      (cancel s).bottom = s.bottom ∧ (cancel s).items = s.items ∧
      (cancel s).backup = s.backup) := by
  obtain ⟨it, bk, itm, ml, tp, bt, cur, pg⟩ := s
  refine ⟨?_, ?_, ⟨rfl, rfl, rfl⟩, ?_, ⟨rfl, rfl, rfl, rfl, rfl⟩,
    ⟨rfl, rfl, rfl, rfl, rfl⟩⟩
  · simp only [scroll]
    split_ifs <;> exact ⟨rfl, rfl, rfl, rfl⟩
  · simp only [paging]
    split_ifs <;> exact ⟨rfl, rfl, rfl, rfl⟩
  · cases bk <;> exact ⟨rfl, rfl, rfl⟩

/-- Claim C8: the claim asserts Scroll(Down) is a no-op whenever
`top + capacity == bottom`; but in that position the cursor can still
move within the window: at `top = 0`, `current = 0`, capacity `3`,
`bottom = 3` the condition holds yet Scroll(Down) advances `current`. -/
theorem c8_scrolldown_counterexample :
    (init0 ["a", "b", "c"] 3).top + (init0 ["a", "b", "c"] 3).max_lines =
        (init0 ["a", "b", "c"] 3).bottom ∧
      scroll (init0 ["a", "b", "c"] 3) DOWN ≠ init0 ["a", "b", "c"] 3 := by
  decide

/-- Claim C8 (amended): repeated Scroll(Up) at `top = 0 ∧ current = 0`
never changes the state; repeated Scroll(Down) never changes the state
when additionally the cursor sits on the last visible row, i.e. at
`top + capacity = bottom ∧ current = capacity - 1`, and likewise at
`bottom = capacity ∧ current = bottom - 1` (with non-negative `top`);
`top + capacity = bottom` alone does not suffice. -/
theorem c8_boundary_noop (s : Screen) (d : Int) (n : Nat)
    (h : (d = UP ∧ s.top = 0 ∧ s.current = 0) ∨
      (d = DOWN ∧ s.top + s.max_lines = s.bottom ∧ s.current = s.max_lines - 1) ∨
      (d = DOWN ∧ s.bottom = s.max_lines ∧ s.current = s.bottom - 1 ∧ 0 ≤ s.top)) :
    (fun t => scroll t d)^[n] s = s := by
  have hfix : scroll s d = s := by
    rcases h with ⟨hd, h1, h2⟩ | ⟨hd, h1, h2⟩ | ⟨hd, h1, h2, h3⟩ <;> subst hd <;>
      (simp only [scroll, UP, DOWN]
       split_ifs <;>
         first
           | rfl
           | (exfalso; omega)
           | (exfalso; simp only [false_and] at *))
  exact Function.iterate_fixed hfix n

/-- Witness for C8: three concrete boundary states are fixed under
repeated scrolling. -/
theorem c8_boundary_noop_witness :
    (fun t => scroll t UP)^[3] (init0 ["a", "b"] 2) = init0 ["a", "b"] 2 :=
  c8_boundary_noop (init0 ["a", "b"] 2) UP 3 (Or.inl ⟨rfl, rfl, rfl⟩)

lemma scroll_winv (s : Screen) (d : Int) (h : WInv s) : WInv (scroll s d) := by
  obtain ⟨it, bk, itm, ml, tp, bt, cur, pg⟩ := s
  unfold WInv at h ⊢
  simp only [scroll, UP, DOWN]
  dsimp only at h
  split_ifs <;> dsimp only <;> omega

lemma paging_winv (s : Screen) (d : Int) (h : WInv s) : WInv (paging s d) := by
  obtain ⟨it, bk, itm, ml, tp, bt, cur, pg⟩ := s
  unfold WInv at h ⊢
  simp only [paging, UP, DOWN]
  dsimp only at h
  split_ifs <;> dsimp only <;> omega

lemma step_winv (s : Screen) (x : NavCmd) (h : WInv s) : WInv (step s x) := by
  cases x
  · exact scroll_winv s UP h
  · exact scroll_winv s DOWN h
  · exact paging_winv s UP h
  · exact paging_winv s DOWN h

lemma run_winv (cmds : List NavCmd) (s : Screen) (h : WInv s) :
    WInv (run s cmds) := by
  induction cmds generalizing s with
  | nil => exact h
  | cons x t ih => exact ih (step s x) (step_winv s x h)

lemma scroll_inv (s : Screen) (d : Int) (h : Inv s) : Inv (scroll s d) := by
  obtain ⟨it, bk, itm, ml, tp, bt, cur, pg⟩ := s
  unfold Inv at h ⊢
  simp only [scroll, UP, DOWN]
  dsimp only at h
  split_ifs <;> dsimp only <;> omega

lemma run_scroll_inv :
    ∀ (cmds : List NavCmd) (s : Screen), Inv s → ScrollOnly cmds →
      Inv (run s cmds)
  | [], _, h, _ => h
  | x :: t, s, h, hs => by
    have ht : ScrollOnly t := fun y hy => hs y (List.mem_cons_of_mem x hy)
    have h2 : Inv (step s x) := by
      rcases hs x (List.mem_cons_self x t) with hx | hx <;> subst hx
      · exact scroll_inv s UP h
      · exact scroll_inv s DOWN h
    exact run_scroll_inv t (step s x) h2 ht

lemma init0_inv (items : List String) (c : Int) (hc : 0 < c) :
    Inv (init0 items c) := by
  unfold Inv init0
  dsimp only
  omega

lemma scroll_max_lines (s : Screen) (d : Int) :
    (scroll s d).max_lines = s.max_lines := by
  simp only [scroll]
  split_ifs <;> rfl

lemma paging_max_lines (s : Screen) (d : Int) :
    (paging s d).max_lines = s.max_lines := by
  simp only [paging]
  split_ifs <;> rfl

lemma step_max_lines (s : Screen) (x : NavCmd) :
    (step s x).max_lines = s.max_lines := by
  cases x
  · exact scroll_max_lines s UP
  · exact scroll_max_lines s DOWN
  · exact paging_max_lines s UP
  · exact paging_max_lines s DOWN

lemma run_max_lines (cmds : List NavCmd) (s : Screen) :
    (run s cmds).max_lines = s.max_lines := by
  induction cmds generalizing s with
  | nil => rfl
  | cons x t ih => exact (ih (step s x)).trans (step_max_lines s x)

/-- Claim C1: the claimed invariant is not preserved by Page calls: at
list length 1 and capacity 1 a single Page(Down) sets `current = -1`,
violating `0 ≤ current`. -/
theorem c1_invariant_counterexample :
    ¬ (0 ≤ (run (init0 ["a"] 1) [NavCmd.pageDown]).current) := by
  decide

/-- Claim C1 (amended): from a freshly constructed screen with positive
capacity, every sequence of scroll/page presses keeps `0 ≤ top` and
`current < capacity`; the full claimed invariant (`0 ≤ top ≤ bottom`,
`0 ≤ current < capacity`, cursor on an existing row for non-empty
lists) holds after every sequence consisting of Scroll presses only.
Page presses can break `0 ≤ current`, `top ≤ bottom` and
`top + current < bottom`. -/
theorem c1_invariants (items : List String) (c : Int)
    (cmds scmds : List NavCmd) (hc : 0 < c) (hs : ScrollOnly scmds) :
    (WInv (run (init0 items c) cmds) ∧
      (run (init0 items c) cmds).max_lines = c) ∧
    (Inv (run (init0 items c) scmds) ∧
      (run (init0 items c) scmds).max_lines = c) := by
  have h0 : Inv (init0 items c) := init0_inv items c hc
  have hw : WInv (init0 items c) := ⟨h0.1, h0.2.1, h0.2.2.2.2.1⟩
  exact ⟨⟨run_winv cmds _ hw, run_max_lines cmds _⟩,
    ⟨run_scroll_inv scmds _ h0 hs, run_max_lines scmds _⟩⟩

/-- Witness for C1: a mixed sequence keeps the weak invariant and a
scroll-only sequence keeps the full invariant, on a concrete screen. -/
theorem c1_invariants_witness :
    (WInv (run (init0 ["a", "b", "c"] 2)
        [NavCmd.pageDown, NavCmd.scrollDown]) ∧
      (run (init0 ["a", "b", "c"] 2)
        [NavCmd.pageDown, NavCmd.scrollDown]).max_lines = 2) ∧
    (Inv (run (init0 ["a", "b", "c"] 2)
        [NavCmd.scrollDown, NavCmd.scrollUp]) ∧
      (run (init0 ["a", "b", "c"] 2)
        [NavCmd.scrollDown, NavCmd.scrollUp]).max_lines = 2) :=
  c1_invariants ["a", "b", "c"] 2 [NavCmd.pageDown, NavCmd.scrollDown]
    [NavCmd.scrollDown, NavCmd.scrollUp] (by decide) (by decide)

lemma paging_bottom (s : Screen) (d : Int) : (paging s d).bottom = s.bottom := by
  simp only [paging]
  split_ifs <;> rfl

lemma paging_page (s : Screen) (d : Int) : (paging s d).page = s.page := by
  simp only [paging]
  split_ifs <;> rfl

lemma pdIter_succ (items : List String) (c : Int) (k : Nat) :
    pdIter items c (k + 1) = paging (pdIter items c k) DOWN := by
  unfold pdIter run
  rw [List.replicate_succ', List.foldl_append]
  rfl

lemma pdIter_geo (items : List String) (c : Int) (k : Nat) :
    (pdIter items c k).bottom = (items.length : Int) ∧
      (pdIter items c k).page = (items.length : Int).fdiv c ∧
      (pdIter items c k).max_lines = c := by
  induction k with
  | zero => exact ⟨rfl, rfl, rfl⟩
  | succ k ih =>
    rw [pdIter_succ]
    exact ⟨(paging_bottom _ _).trans ih.1, (paging_page _ _).trans ih.2.1,
      (paging_max_lines _ _).trans ih.2.2⟩

lemma paging_down_step (s : Screen) (k : Int) (hc : 0 < s.max_lines)
    (htop : s.top = k * s.max_lines) (hcur : s.current = 0)
    (hpage : s.page = s.bottom.fdiv s.max_lines)
    (hmod : s.bottom.fmod s.max_lines ≠ 0)
    (hk : k < s.bottom.fdiv s.max_lines) :
    paging s DOWN = { s with top := (k + 1) * s.max_lines } := by
  obtain ⟨it, bk, itm, ml, tp, bt, cur, pg⟩ := s
  dsimp only at *
  subst htop hcur hpage
  simp only [paging, DOWN, UP]
  have hcp : (k * ml + 0).fdiv ml = k := by
    rw [add_zero]; exact Int.mul_fdiv_cancel _ (by omega)
  rw [hcp]
  have hfm : 0 ≤ bt.fmod ml := Int.fmod_nonneg' bt (by omega)
  by_cases hlast : k + 1 = bt.fdiv ml
  · rw [if_pos hlast]
    have hmin : min (0 : Int) (bt.fmod ml - 1) = 0 := by omega
    rw [hmin]
    dsimp only
    rw [if_neg (by omega : ¬((1 : Int) = -1 ∧ k > 0))]
    rw [if_pos (⟨trivial, hk⟩ : True ∧ k < bt.fdiv ml)]
    simp only [Screen.mk.injEq, true_and, and_true]
    ring
  · rw [if_neg hlast]
    dsimp only
    rw [if_neg (by omega : ¬((1 : Int) = -1 ∧ k > 0))]
    rw [if_pos (⟨trivial, hk⟩ : True ∧ k < bt.fdiv ml)]
    simp only [Screen.mk.injEq, true_and, and_true]
    ring

lemma paging_down_last (s : Screen) (hc : 0 < s.max_lines)
    (htop : s.top = s.bottom.fdiv s.max_lines * s.max_lines)
    (hcur : s.current = 0)
    (hpage : s.page = s.bottom.fdiv s.max_lines) :
    paging s DOWN = s := by
  obtain ⟨it, bk, itm, ml, tp, bt, cur, pg⟩ := s
  dsimp only at *
  subst htop hcur hpage
  simp only [paging, DOWN, UP]
  have hcp : (bt.fdiv ml * ml + 0).fdiv ml = bt.fdiv ml := by
    rw [add_zero]; exact Int.mul_fdiv_cancel _ (by omega)
  rw [hcp]
  rw [if_neg (by omega : ¬(bt.fdiv ml + 1 = bt.fdiv ml))]
  dsimp only
  rw [if_neg (by omega : ¬((1 : Int) = -1 ∧ bt.fdiv ml > 0))]
  rw [if_neg (by simp : ¬(True ∧ bt.fdiv ml < bt.fdiv ml))]

lemma pdIter_closed (items : List String) (c : Int) (hc : 0 < c)
    (hm : (items.length : Int).fmod c ≠ 0) :
    ∀ k : Nat, (k : Int) ≤ (items.length : Int).fdiv c →
      (pdIter items c k).top = (k : Int) * c ∧
        (pdIter items c k).current = 0 := by
  intro k
  induction k with
  | zero => exact fun _ => ⟨by simp only [Nat.cast_zero, zero_mul]; rfl, rfl⟩
  | succ k ih =>
    intro hk1
    have hkk : (k : Int) ≤ (items.length : Int).fdiv c := by
      push_cast at hk1; omega
    have hk' : (k : Int) < (items.length : Int).fdiv c := by
      push_cast at hk1; omega
    obtain ⟨htop, hcur⟩ := ih hkk
    have hg := pdIter_geo items c k
    rw [pdIter_succ]
    rw [paging_down_step (pdIter items c k) (k : Int)
      (by rw [hg.2.2]; exact hc)
      (by rw [hg.2.2]; exact htop) hcur
      (by rw [hg.2.1, hg.1, hg.2.2])
      (by rw [hg.1, hg.2.2]; exact hm)
      (by rw [hg.1, hg.2.2]; exact hk')]
    refine ⟨?_, hcur⟩
    show ((k : Int) + 1) * (pdIter items c k).max_lines = ((k + 1 : Nat) : Int) * c
    rw [hg.2.2]
    push_cast
    ring

/-- Claim C5: the claim asserts every Page(Down) after the `L // C`-th
is a no-op; at `L = C = 1` (`L // C = 1`) the second Page(Down) still
mutates the state (the code keeps adding `capacity` to `top`), so the
claim fails when `L mod C = 0`. -/
theorem c5_noop_counterexample :
    run (init0 ["a"] 1) [NavCmd.pageDown, NavCmd.pageDown] ≠
      run (init0 ["a"] 1) [NavCmd.pageDown] := by
  decide

/-- Claim C5 (amended): when `L mod C ≠ 0`, starting from the fresh
screen, after `k ≤ L // C` Page(Down) presses the viewport sits at
`top = k * C` with page index `k` — so exactly `L // C` presses reach
the last page (`page = L // C`) and fewer do not — and once there every
further Page(Down) is a no-op.  When `L mod C = 0` and `L > 0` the
press after the `L // C`-th still mutates the state. -/
theorem c5_page_monotonicity (items : List String) (c : Int) (k : Nat)
    (hc : 0 < c) (hm : (items.length : Int).fmod c ≠ 0)
    (hk : k ≤ lastPage items c) :
    (pdIter items c k).top = (k : Int) * c ∧
      currentPage (pdIter items c k) = (k : Int) ∧
      (init0 items c).page = (lastPage items c : Int) ∧
      paging (pdIter items c (lastPage items c)) DOWN =
        pdIter items c (lastPage items c) := by
  have hL0 : (0 : Int) ≤ (items.length : Int) := by omega
  have hpg0 : 0 ≤ (items.length : Int).fdiv c := Int.fdiv_nonneg hL0 hc.le
  have hcast : ((lastPage items c : Nat) : Int) = (items.length : Int).fdiv c :=
    Int.toNat_of_nonneg hpg0
  have hkle : (k : Int) ≤ (items.length : Int).fdiv c := by
    rw [← hcast]; exact_mod_cast hk
  obtain ⟨htop, hcur⟩ := pdIter_closed items c hc hm k hkle
  have hg := pdIter_geo items c k
  refine ⟨htop, ?_, ?_, ?_⟩
  · unfold currentPage
    rw [htop, hcur, hg.2.2, add_zero]
    exact Int.mul_fdiv_cancel _ (ne_of_gt hc)
  · show (items.length : Int).fdiv c = (lastPage items c : Int)
    rw [hcast]
  · obtain ⟨htopl, hcurl⟩ :=
      pdIter_closed items c hc hm (lastPage items c) (le_of_eq hcast)
    have hgl := pdIter_geo items c (lastPage items c)
    exact paging_down_last (pdIter items c (lastPage items c))
      (by rw [hgl.2.2]; exact hc)
      (by rw [hgl.2.2, hgl.1, htopl, hcast])
      hcurl
      (by rw [hgl.2.1, hgl.1, hgl.2.2])

/-- Witness for C5: on four items with capacity three (one full page
plus one leftover item), one press lands on the last page and pressing
again changes nothing. -/
theorem c5_page_monotonicity_witness :
    (pdIter ["a", "b", "c", "d"] 3 1).top = ((1 : Nat) : Int) * 3 ∧
      currentPage (pdIter ["a", "b", "c", "d"] 3 1) = ((1 : Nat) : Int) ∧
      (init0 ["a", "b", "c", "d"] 3).page =
        (lastPage ["a", "b", "c", "d"] 3 : Int) ∧
      paging (pdIter ["a", "b", "c", "d"] 3
          (lastPage ["a", "b", "c", "d"] 3)) DOWN =
        pdIter ["a", "b", "c", "d"] 3 (lastPage ["a", "b", "c", "d"] 3) :=
  c5_page_monotonicity ["a", "b", "c", "d"] 3 1 (by decide) (by decide)
    (by decide)

end MyTui
